import Mathlib

/-
Verification of the NVGPUStats library: a shallow embedding of
`information.py`, `nvda_query.py`, `monitor.py` and `async_monitor.py`,
with proofs of the specified properties.

Modelling conventions:
  * Numeric text is modelled with exact rationals: the values handled are
    short decimal strings.  Python `float(s)` is `pyFloat` (sign, integer
    part, optional fraction part), `int(s)` is `pyInt`, and
    `int(float(x))` truncates toward zero (`ratTrunc`).
  * Python dicts are association lists in insertion order (`alGet?`,
    `alSet`), matching dict insertion-order semantics; `x in d` is
    `(alGet? d x).isSome`, `d[k] = v` is `alSet`.
  * The external `nvidia-smi` process is abstracted by an `Exec` record
    holding the textual response (or a non-zero-exit failure) of each kind
    of invocation.  Every model function additionally returns the list of
    external invocations it performed, so properties of the form "the
    executor is never invoked" are statable.
  * Python exceptions become an explicit error type `Err`, with one
    constructor per distinct failure raised by the code.
-/

/-! ## Python string and number primitives

String operations are implemented on the character list `String.data` by
structural recursion (the standard library's position-based versions are
extensionally the same but do not reduce inside the kernel). -/

/-- The whitespace removed by Python `str.strip()`. -/
def isPySpace (c : Char) : Bool :=
  c = ' ' || c = '\t' || c = '\n' || c = '\r' || c = '\x0b' || c = '\x0c'

/-- Python `str.strip()` on a character list. -/
def trimChars (l : List Char) : List Char :=
  ((l.dropWhile isPySpace).reverse.dropWhile isPySpace).reverse

/-- Python `str.strip()`. -/
def pyStrip (s : String) : String := String.mk (trimChars s.data)

/-- Python `str.split(sep)` for a one-character separator: empty input
gives `[[]]`, adjacent separators give empty pieces. -/
def splitOnChar (sep : Char) : List Char → List (List Char)
  | [] => [[]]
  | c :: cs =>
    let r := splitOnChar sep cs
    if c = sep then [] :: r
    else
      match r with
      | [] => [[c]]
      | h :: t => (c :: h) :: t

/-- Numeric value of a digit list (`0` for the empty list); only applied
once all characters are checked to be digits. -/
def digitsValChars (l : List Char) : Nat :=
  l.foldl (fun n c => n * 10 + (c.toNat - 48)) 0

/-- Python `int(s)` on a string: optional sign followed by at least one
digit; anything else raises `ValueError` (here: `none`). -/
def pyInt (s : String) : Option Int :=
  match trimChars s.data with
  | '-' :: b =>
    if b ≠ [] ∧ b.all Char.isDigit then some (-(digitsValChars b : Int)) else none
  | '+' :: b =>
    if b ≠ [] ∧ b.all Char.isDigit then some ((digitsValChars b : Int)) else none
  | b =>
    if b ≠ [] ∧ b.all Char.isDigit then some ((digitsValChars b : Int)) else none

/-- Python `float(s)` restricted to the decimal forms the tool emits:
optional sign, integer part, optional `.` and fraction part, with at least
one digit overall.  The value is exact as a rational
(`a.b = (a * 10 ^ len(b) + b) / 10 ^ len(b)`). -/
def pyFloat (s : String) : Option ℚ :=
  let t := trimChars s.data
  let sg : Int := match t with | '-' :: _ => -1 | _ => 1
  let body : List Char := match t with | '-' :: r => r | '+' :: r => r | r => r
  match splitOnChar '.' body with
  | [a] =>
    if a ≠ [] ∧ a.all Char.isDigit then
      some (mkRat (sg * (digitsValChars a : Int)) 1)
    else none
  | [a, b] =>
    if (a ≠ [] ∨ b ≠ []) ∧ a.all Char.isDigit ∧ b.all Char.isDigit then
      some (mkRat (sg * ((digitsValChars a : Int) * ((10 ^ b.length : Nat) : Int) +
        (digitsValChars b : Int))) (10 ^ b.length))
    else none
  | _ => none

/-- Truncation toward zero: the behaviour of Python `int()` on a float
(`n / d` rounded toward zero, with `q.den` always positive). -/
def ratTrunc (q : ℚ) : Int :=
  match q.num with
  | Int.ofNat n => Int.ofNat (n / q.den)
  | Int.negSucc n => -(Int.ofNat ((n + 1) / q.den))

/-- `output.strip().split("\n")` as used by the parsers. -/
def pyLines (s : String) : List String :=
  (splitOnChar '\n' (trimChars s.data)).map String.mk

/-- `[value.strip() for value in line.split(",")]`. -/
def pyFields (line : String) : List String :=
  (splitOnChar ',' line.data).map (fun cs => String.mk (trimChars cs))

instance {ε α : Type} [DecidableEq ε] [DecidableEq α] : DecidableEq (Except ε α) :=
  fun a b =>
    match a, b with
    | Except.ok x, Except.ok y =>
      if h : x = y then Decidable.isTrue (by rw [h]) else Decidable.isFalse (by simp [h])
    | Except.error x, Except.error y =>
      if h : x = y then Decidable.isTrue (by rw [h]) else Decidable.isFalse (by simp [h])
    | Except.ok _, Except.error _ => Decidable.isFalse (by simp)
    | Except.error _, Except.ok _ => Decidable.isFalse (by simp)

/-! ## Association lists standing for Python dicts -/

/-- Lookup: Python `d[k]` / `k in d`. -/
def alGet? {α β : Type} [DecidableEq α] : List (α × β) → α → Option β
  | [], _ => none
  | (k', v') :: rest, k => if k' = k then some v' else alGet? rest k

/-- Update-or-append: Python `d[k] = v` (keeps insertion order). -/
def alSet {α β : Type} [DecidableEq α] : List (α × β) → α → β → List (α × β)
  | [], k, v => [(k, v)]
  | (k', v') :: rest, k, v =>
    if k' = k then (k', v) :: rest else (k', v') :: alSet rest k v

@[simp] theorem alGet?_nil {α β : Type} [DecidableEq α] (k : α) :
    alGet? ([] : List (α × β)) k = none := rfl

theorem alGet?_cons {α β : Type} [DecidableEq α] (k' : α) (v' : β) (rest : List (α × β)) (k : α) :
    alGet? ((k', v') :: rest) k = if k' = k then some v' else alGet? rest k := rfl

theorem alGet?_alSet_self {α β : Type} [DecidableEq α] (d : List (α × β)) (k : α) (v : β) :
    alGet? (alSet d k v) k = some v := by
  induction d with
  | nil => simp [alSet, alGet?]
  | cons hd tl ih =>
    obtain ⟨k', v'⟩ := hd
    by_cases h : k' = k <;> simp [alSet, alGet?, h, ih]

theorem alGet?_alSet_ne {α β : Type} [DecidableEq α] (d : List (α × β)) (k k₀ : α) (v : β)
    (h : k ≠ k₀) : alGet? (alSet d k v) k₀ = alGet? d k₀ := by
  induction d with
  | nil => simp [alSet, alGet?, h]
  | cons hd tl ih =>
    obtain ⟨k', v'⟩ := hd
    by_cases h' : k' = k
    · subst h'
      simp [alSet, alGet?, h]
    · simp [alSet, alGet?, h', ih]

theorem alSet_fst_of_mem {α β : Type} [DecidableEq α] (d : List (α × β)) (k : α) (v : β)
    (h : (alGet? d k).isSome) : (alSet d k v).map Prod.fst = d.map Prod.fst := by
  induction d with
  | nil => simp [alGet?] at h
  | cons hd tl ih =>
    obtain ⟨k', v'⟩ := hd
    by_cases h' : k' = k
    · simp [alSet, h']
    · simp [alGet?, h'] at h
      simp [alSet, h', ih h]

theorem alSet_fst_of_not_mem {α β : Type} [DecidableEq α] (d : List (α × β)) (k : α) (v : β)
    (h : alGet? d k = none) : (alSet d k v).map Prod.fst = d.map Prod.fst ++ [k] := by
  induction d with
  | nil => simp [alSet]
  | cons hd tl ih =>
    obtain ⟨k', v'⟩ := hd
    by_cases h' : k' = k
    · simp [alGet?, h'] at h
    · simp [alGet?, h'] at h
      simp [alSet, h', ih h]

/-! ## `information.py` -/

/-- The `"type"` entry of an information detail record. -/
inductive IType
  | int
  | float
  | str
deriving DecidableEq

/-- One entry of `information_details`. -/
structure InfoDetail where
  descr : String
  is_static : Bool
  vtype : IType
deriving DecidableEq

def information_list : List String :=
  ["GPU_NAME", "TOTAL_MEMORY", "MEMORY_USED", "AVAILABLE_MEMORY", "UTILIZATION",
   "WATTAGE", "TEMPERATURE", "FAN_SPEED", "MEMORY_USED_PERCENTAGE", "POWER_LIMIT"]

def information_details : List (String × InfoDetail) :=
  [("GPU_NAME", ⟨"Name of GPU", true, IType.str⟩),
   ("TOTAL_MEMORY", ⟨"Total memory of GPU in MiB", true, IType.int⟩),
   ("MEMORY_USED", ⟨"Memory used in GPU in MiB", false, IType.int⟩),
   ("AVAILABLE_MEMORY", ⟨"Available memory in GPU in MiB", false, IType.int⟩),
   ("UTILIZATION", ⟨"GPU utilization percentage", false, IType.int⟩),
   ("WATTAGE", ⟨"Current power consumption in watts", false, IType.float⟩),
   ("TEMPERATURE", ⟨"Current temperature in Celsius", false, IType.int⟩),
   ("FAN_SPEED", ⟨"Fan speed percentage", false, IType.int⟩),
   ("MEMORY_USED_PERCENTAGE", ⟨"Percentage of memory used", false, IType.float⟩),
   ("POWER_LIMIT", ⟨"Power limit in watts", true, IType.float⟩)]

/-- `information_details[information]["is_static"]` (all call sites pass a
registered identifier, see `information_assert`). -/
def is_static (information : String) : Bool :=
  ((alGet? information_details information).map InfoDetail.is_static).getD false

/-- `information_details[information]["type"]` as a partial lookup. -/
def infoType (information : String) : Option IType :=
  (alGet? information_details information).map InfoDetail.vtype

/-- The module-level assertion of `information.py`:
`set(information_list) == set(information_details.keys())`. -/
theorem information_assert :
    (∀ i ∈ information_list, i ∈ information_details.map Prod.fst) ∧
    (∀ i ∈ information_details.map Prod.fst, i ∈ information_list) := by
  decide

/-! ## `nvda_query.py`: values, errors, the abstract executor -/

/-- A typed metric value as produced by the parsers. -/
inductive Val
  | int (i : Int)
  | float (q : ℚ)
  | str (s : String)
deriving DecidableEq

/-- Python numeric coercion `float(x)` applied to an already-typed value
(used when a derived metric's computed result is cast): ints and floats convert,
strings are parsed, anything unparseable raises. -/
def valToRat : Val → Option ℚ
  | Val.int i => some (i : ℚ)
  | Val.float q => some q
  | Val.str s => pyFloat s

/-- The distinct failures raised by the library. -/
inductive Err
  | invalidDevices (ids : List Int)
  | invalidInfo (ids : List String)
  | missingDep (derived dep : String)
  | execFailure (msg : String)
  | parseFailure
  | indexError
  | keyError
  | invalidProperty (name : String)
  | computeError
  | lifecycleError (msg : String)
deriving DecidableEq

/-- The kinds of external `nvidia-smi` invocation the library makes. -/
inductive Call
  | listDevs
  | staticInfo (device : Int)
  | mainQuery
deriving DecidableEq

/-- The abstract external executor: for each kind of invocation, either the
textual output of a zero-exit run, or `Except.error` for a non-zero exit
(`subprocess.CalledProcessError`). -/
structure Exec where
  listOutput : Except Unit String
  staticOutput : Int → Except Unit String
  queryOutput : Except Unit String

/-- The module-level caches of `nvda_query.py`: `_cached_devices` and
`_cached_static_info`. -/
structure QState where
  devCache : List Int
  staticCache : List (Int × List (String × Val))
deriving DecidableEq

/-! ## `list_devices` -/

/-- Parsing of one line of `--query-gpu=index` output:
`int(line.strip())` guarded by `line.strip().isdigit()`; a line that is not
entirely digits is skipped by the comprehension's filter. -/
def parseDeviceLine (line : String) : Option Int :=
  let t := trimChars line.data
  if t ≠ [] ∧ t.all Char.isDigit then some ((digitsValChars t : Int)) else none

/-- `list_devices()`: returns (result, new `_cached_devices`, invocations).
The executor is consulted only when the cache is the empty list. -/
def list_devices (e : Exec) (cache : List Int) :
    Except Err (List Int) × List Int × List Call :=
  if cache ≠ [] then (Except.ok cache, cache, [])
  else
    match e.listOutput with
    | Except.error _ =>
      (Except.error (Err.execFailure "Failed to list NVIDIA GPUs."), cache, [Call.listDevs])
    | Except.ok out =>
      let devices := (pyLines out).filterMap parseDeviceLine
      let sorted := devices.insertionSort (fun a b => a ≤ b)
      (Except.ok sorted, sorted, [Call.listDevs])

/-! ## `get_static_info` -/

/-- The field-to-value conversion of `get_static_info` (lines 61-67):
`int(float(v))`, `float(v)`, or the (already stripped) string verbatim. -/
def staticConvert (ty : IType) (v : String) : Option Val :=
  match ty with
  | IType.int => (pyFloat v).map (fun q => Val.int (ratTrunc q))
  | IType.float => (pyFloat v).map Val.float
  | IType.str => some (Val.str v)

/-- The positional conversion loop of `get_static_info`:
`for idx, info in enumerate(static_information_list): ...`. -/
def buildStaticInfo : List String → List String → Nat → List (String × Val) →
    Except Err (List (String × Val))
  | [], _, _, acc => Except.ok acc
  | info :: rest, values, idx, acc =>
    match infoType info with
    | none => Except.error Err.keyError
    | some ty =>
      match values.get? idx with
      | none => Except.error Err.indexError
      | some v =>
        match staticConvert ty v with
        | none => Except.error Err.parseFailure
        | some val => buildStaticInfo rest values (idx + 1) (alSet acc info val)

/-- `get_static_info(device)`: per-device cache of the static metrics
(`information_list` filtered by `is_static`), fetched through the executor
at most once per device. -/
def get_static_info (e : Exec) (st : QState) (device : Int) :
    Except Err (List (String × Val)) × QState × List Call :=
  let static_information_list := information_list.filter is_static
  match alGet? st.staticCache device with
  | some rec => (Except.ok rec, st, [])
  | none =>
    match e.staticOutput device with
    | Except.error _ =>
      (Except.error (Err.execFailure "Failed to get static information for NVIDIA GPU."),
       st, [Call.staticInfo device])
    | Except.ok out =>
      let values := pyFields (pyStrip out)
      match buildStaticInfo static_information_list values 0 [] with
      | Except.error er => (Except.error er, st, [Call.staticInfo device])
      | Except.ok rec =>
        (Except.ok rec, { st with staticCache := alSet st.staticCache device rec },
         [Call.staticInfo device])

/-! ## The query mapping and derived properties -/

def _QUERY_MAPPING : List (String × String) :=
  [("GPU_NAME", "name"), ("TOTAL_MEMORY", "memory.total"), ("MEMORY_USED", "memory.used"),
   ("AVAILABLE_MEMORY", "memory.free"), ("UTILIZATION", "utilization.gpu"),
   ("WATTAGE", "power.draw"), ("TEMPERATURE", "temperature.gpu"),
   ("FAN_SPEED", "fan.speed"), ("POWER_LIMIT", "power.max_limit")]

/-- `_compute_memory_used_percentage`: `(memory_used / total_memory) * 100`;
division by zero raises. -/
def _compute_memory_used_percentage (memory_used total_memory : ℚ) : Option ℚ :=
  if total_memory = 0 then none else some (memory_used / total_memory * 100)

/-- `_compute_memory_used_percentage` applied to the positional argument
list built by `query_devices` (Python coerces the arguments on use). -/
def memUsedPctFn (args : List Val) : Option ℚ :=
  match args with
  | [u, t] => do
    let uq ← valToRat u
    let tq ← valToRat t
    _compute_memory_used_percentage uq tq
  | _ => none

def _DERIVED_PROPERTIES : List (String × (List String × (List Val → Option ℚ))) :=
  [("MEMORY_USED_PERCENTAGE", (["MEMORY_USED", "TOTAL_MEMORY"], memUsedPctFn))]

/-- The module-level assertions of `nvda_query.py`: every registered metric
is queryable or derived, and no metric is both. -/
theorem nvda_query_asserts :
    (∀ i ∈ information_list,
        i ∈ _QUERY_MAPPING.map Prod.fst ∨ i ∈ _DERIVED_PROPERTIES.map Prod.fst) ∧
    (∀ i ∈ _QUERY_MAPPING.map Prod.fst, i ∉ _DERIVED_PROPERTIES.map Prod.fst) := by
  decide

/-! ## `query_devices` -/

/-- The inner loop of the derived-dependency check (lines 122-124): first
dependency of `info` that is neither static nor contained in `information`. -/
def findDepViolation (information : List String) (info : String) :
    List String → Option (String × String)
  | [] => none
  | dep :: rest =>
    if is_static dep = false ∧ dep ∉ information then some (info, dep)
    else findDepViolation information info rest

/-- The outer loop of the derived-dependency check (lines 120-124): the
first `(derived, dep)` pair on which the code raises, if any. -/
def findDerivedViolation (information : List String) :
    List String → Option (String × String)
  | [] => none
  | info :: rest =>
    match alGet? _DERIVED_PROPERTIES info with
    | some (deps, _) =>
      match findDepViolation information info deps with
      | some v => some v
      | none => findDerivedViolation information rest
    | none => findDerivedViolation information rest

/-- The field-to-value conversion of the `query_devices` row loop
(lines 157-163), identical in text to the one in `get_static_info`. -/
def queryConvert (ty : IType) (v : String) : Option Val :=
  match ty with
  | IType.int => (pyFloat v).map (fun q => Val.int (ratTrunc q))
  | IType.float => (pyFloat v).map Val.float
  | IType.str => some (Val.str v)

/-- The cast applied to a derived metric's computed value (lines 173-178):
`int(float(value))` / `float(value)` / verbatim. -/
def derivedCast (ty : IType) (v : Val) : Option Val :=
  match ty with
  | IType.int => (valToRat v).map (fun q => Val.int (ratTrunc q))
  | IType.float => (valToRat v).map Val.float
  | IType.str => some v

/-- `_get_property(device, property_name, gpu_data)`. -/
def _get_property (e : Exec) (st : QState) (device : Int) (property_name : String)
    (gpu_data : List (String × Val)) : Except Err Val × QState × List Call :=
  match alGet? gpu_data property_name with
  | some v => (Except.ok v, st, [])
  | none =>
    if is_static property_name then
      match get_static_info e st device with
      | (Except.ok record, st', calls) =>
        match alGet? record property_name with
        | some v => (Except.ok v, st', calls)
        | none => (Except.error Err.keyError, st', calls)
      | (Except.error er, st', calls) => (Except.error er, st', calls)
    else (Except.error (Err.invalidProperty property_name), st, [])

/-- Resolution of a derived metric's positional arguments:
`[_get_property(gpu_index, info_key, gpu_data) for info_key in deps]`. -/
def resolveProps (e : Exec) (device : Int) (gpu_data : List (String × Val)) :
    QState → List String → Except Err (List Val) × QState × List Call
  | st, [] => (Except.ok [], st, [])
  | st, p :: rest =>
    match _get_property e st device p gpu_data with
    | (Except.error er, st', calls) => (Except.error er, st', calls)
    | (Except.ok v, st', calls) =>
      match resolveProps e device gpu_data st' rest with
      | (Except.ok vs, st'', calls') => (Except.ok (v :: vs), st'', calls ++ calls')
      | (Except.error er, st'', calls') => (Except.error er, st'', calls ++ calls')

/-- The first phase of the row loop (lines 154-164): positional assignment
of the externally queried fields, `q_idx` counting only mapped metrics. -/
def parseQueried (values : List String) :
    List String → Nat → List (String × Val) → Except Err (List (String × Val))
  | [], _, acc => Except.ok acc
  | info :: rest, qIdx, acc =>
    if (alGet? _QUERY_MAPPING info).isSome then
      match infoType info with
      | none => Except.error Err.keyError
      | some ty =>
        match values.get? qIdx with
        | none => Except.error Err.indexError
        | some v =>
          match queryConvert ty v with
          | none => Except.error Err.parseFailure
          | some val => parseQueried values rest (qIdx + 1) (alSet acc info val)
    else parseQueried values rest qIdx acc

/-- The second phase of the row loop (lines 166-178): computation of the
derived metrics, resolving dependencies through `_get_property`. -/
def computeDerived (e : Exec) (gpu_index : Int) :
    QState → List String → List (String × Val) →
    Except Err (List (String × Val)) × QState × List Call
  | st, [], gpu_data => (Except.ok gpu_data, st, [])
  | st, info :: rest, gpu_data =>
    match alGet? _DERIVED_PROPERTIES info with
    | none => computeDerived e gpu_index st rest gpu_data
    | some (deps, f) =>
      match infoType info with
      | none => (Except.error Err.keyError, st, [])
      | some ty =>
        match resolveProps e gpu_index gpu_data st deps with
        | (Except.error er, st', calls) => (Except.error er, st', calls)
        | (Except.ok args, st', calls) =>
          match f args with
          | none => (Except.error Err.computeError, st', calls)
          | some q =>
            match derivedCast ty (Val.float q) with
            | none => (Except.error Err.parseFailure, st', calls)
            | some val =>
              match computeDerived e gpu_index st' rest (alSet gpu_data info val) with
              | (res, st'', calls') => (res, st'', calls ++ calls')

/-- Processing of one retained response row: queried fields, then derived. -/
def processRow (e : Exec) (st : QState) (information : List String) (gpu_index : Int)
    (values : List String) : Except Err (List (String × Val)) × QState × List Call :=
  match parseQueried values information 0 [] with
  | Except.error er => (Except.error er, st, [])
  | Except.ok gpu_data => computeDerived e gpu_index st information gpu_data

/-- The row loop of `query_devices` (lines 147-180): each line's last field
is the device index; rows whose index is not in `devices` are discarded. -/
def processLines (e : Exec) (devices : List Int) (information : List String) :
    QState → List String → List (Int × List (String × Val)) →
    Except Err (List (Int × List (String × Val))) × QState × List Call
  | st, [], data => (Except.ok data, st, [])
  | st, line :: rest, data =>
    let values := pyFields line
    match values.getLast? with
    | none => (Except.error Err.indexError, st, [])
    | some lastv =>
      match pyInt lastv with
      | none => (Except.error Err.parseFailure, st, [])
      | some gpu_index =>
        if gpu_index ∈ devices then
          match processRow e st information gpu_index values with
          | (Except.error er, st', calls) => (Except.error er, st', calls)
          | (Except.ok gpu_data, st', calls) =>
            match processLines e devices information st' rest (alSet data gpu_index gpu_data) with
            | (res, st'', calls') => (res, st'', calls ++ calls')
        else processLines e devices information st rest data

/-- Step 3's external parameter list: the query parameter of every mapped
metric, in request order, plus the trailing `"index"` (lines 127-131). -/
def query_params (information : List String) : List String :=
  information.filterMap (alGet? _QUERY_MAPPING) ++ ["index"]

/-- `query_devices(devices, information)`: validation, one external query,
row parsing and derived-metric computation. -/
def query_devices (e : Exec) (st : QState) (devices : List Int)
    (information : List String) :
    Except Err (List (Int × List (String × Val))) × QState × List Call :=
  match list_devices e st.devCache with
  | (Except.error er, c', calls0) => (Except.error er, { st with devCache := c' }, calls0)
  | (Except.ok available_devices, c', calls0) =>
    let st0 : QState := { st with devCache := c' }
    let invalid_devices := (devices.filter (fun d => d ∉ available_devices)).dedup
    if invalid_devices ≠ [] then
      (Except.error (Err.invalidDevices invalid_devices), st0, calls0)
    else
      let invalid_info := (information.filter (fun i => i ∉ information_list)).dedup
      if invalid_info ≠ [] then
        (Except.error (Err.invalidInfo invalid_info), st0, calls0)
      else
        match findDerivedViolation information information with
        | some v => (Except.error (Err.missingDep v.1 v.2), st0, calls0)
        | none =>
          match e.queryOutput with
          | Except.error _ =>
            (Except.error (Err.execFailure "Failed to query NVIDIA GPUs."), st0,
             calls0 ++ [Call.mainQuery])
          | Except.ok out =>
            match processLines e devices information st0 (pyLines out) [] with
            | (res, st1, calls1) => (res, st1, calls0 ++ [Call.mainQuery] ++ calls1)

/-- The device index carried by one response row: its last comma-delimited
field, as read by `int(values[-1])`. -/
def rowIndex (line : String) : Option Int :=
  (pyFields line).getLast?.bind pyInt

/-- The device indices appearing in an executor response. -/
def responseIndices (out : String) : List Int :=
  (pyLines out).filterMap rowIndex

/-! ## `monitor.py`: the generator's continuation protocol -/

/-- A Python value as sent into the generator through `gen.send`. -/
inductive PyVal
  | none
  | bool (b : Bool)
  | int (i : Int)
  | float (q : ℚ)
  | str (s : String)
deriving DecidableEq

def pyIsNone : PyVal → Bool
  | PyVal.none => true
  | _ => false

/-- `isinstance(x, bool)` (Python `bool` is not satisfied by `int` values). -/
def pyIsBool : PyVal → Bool
  | PyVal.bool _ => true
  | _ => false

/-- Python truthiness, as tested by `not control`. -/
def pyTruthy : PyVal → Bool
  | PyVal.none => false
  | PyVal.bool b => b
  | PyVal.int i => decide (i ≠ 0)
  | PyVal.float q => decide (q ≠ 0)
  | PyVal.str s => !s.isEmpty

/-- Line 32 of `monitor.py`:
`(control is None) or (not isinstance(control, bool)) or (not control)`. -/
def monitorShouldStop (control : PyVal) : Bool :=
  pyIsNone control || !pyIsBool control || !pyTruthy control

/-- The yield count of the `monitor` generator loop (lines 26-33): the
initial `next()` produces the first sample; after each yield the sent value
decides whether another query-and-yield iteration runs. -/
def monitorYields : List PyVal → Nat
  | [] => 1
  | c :: cs => if monitorShouldStop c then 1 else 1 + monitorYields cs

/-! ## `async_monitor.py`: lifecycle state machine -/

def _INIT : Nat := 0
def _STARTED : Nat := 1
def _STOPPED : Nat := 2

/-- The caller-visible fields of `AsyncMonitor` that the lifecycle touches
(`state` stands for the mangled `__state`). -/
structure AsyncMonitor where
  period : ℚ
  devices : List Int
  information : List String
  state : Nat
deriving DecidableEq

/-- `AsyncMonitor.__init__`. -/
def AsyncMonitor.init (period : ℚ) (devices : List Int) (information : List String) :
    AsyncMonitor :=
  { period := period, devices := devices, information := information, state := _INIT }

/-- `AsyncMonitor.start` (lines 32-42): rejected unless the state is
`_INIT`; otherwise the state becomes `_STARTED` and the thread is spawned. -/
def AsyncMonitor.start (m : AsyncMonitor) : Except Err AsyncMonitor :=
  if m.state ≠ _INIT then
    Except.error (Err.lifecycleError "The monitor is already running. Start can only be called once.")
  else Except.ok { m with state := _STARTED }

/-- `AsyncMonitor.stop` (lines 44-53): rejected unless the state is
`_STARTED`; otherwise the state becomes `_STOPPED` and the thread joined. -/
def AsyncMonitor.stop (m : AsyncMonitor) : Except Err AsyncMonitor :=
  if m.state ≠ _STARTED then
    Except.error (Err.lifecycleError "The monitor is not running. Stop can only be called right after start.")
  else Except.ok { m with state := _STOPPED }

/-! ## The pacing loop of `AsyncMonitor._run` / `active_monitor` -/

/-- The clock state of the pacing loop: the current time and the `prev_time`
variable (`none` before the first tick). -/
structure RunClock where
  now : ℚ
  prev_time : Option ℚ
deriving DecidableEq

/-- One iteration of the loop body of `AsyncMonitor._run` (lines 68-76) up
to the sample append; `work` is the (nonnegative) wall time the query and
append take.  Returns the time slept and the new clock: `cur_time` is read,
the remaining portion of the period is slept when positive, `prev_time` is
re-read just before the query. -/
def runTick (period : ℚ) (clk : RunClock) (work : ℚ) : ℚ × RunClock :=
  let cur_time := clk.now
  let slept :=
    match clk.prev_time with
    | Option.none => 0
    | Option.some p =>
      let sleep_time := period - (cur_time - p)
      if sleep_time > 0 then sleep_time else 0
  let tickStart := cur_time + slept
  (slept, { now := tickStart + work, prev_time := Option.some tickStart })

/-! ## `convert_to_dict_list` -/

/-- One timestamped sample: `(timestamp, {device: {metric: value}})`. -/
abbrev Sample : Type := ℚ × List (Int × List (String × Val))

/-- The columnar form: a `"timestamps"` list and a `"data"` dict of
per-device per-metric value lists. -/
structure Columnar where
  timestamps : List ℚ
  data : List (Int × List (String × List Val))
deriving DecidableEq

/-- The inner loop of `convert_to_dict_list` (lines 96-99): ensure the
key's list exists (`[]` default), then append the value to it. -/
def appendKV (m : List (String × List Val)) (kv : String × Val) :
    List (String × List Val) :=
  alSet m kv.1 (((alGet? m kv.1).getD []) ++ [kv.2])

/-- The device loop of `convert_to_dict_list` (lines 93-99): ensure the
device's dict exists (`\x7b\x7d` default), then run the key loop on it. -/
def appendDev (data : List (Int × List (String × List Val)))
    (dd : Int × List (String × Val)) : List (Int × List (String × List Val)) :=
  alSet data dd.1 (dd.2.foldl appendKV ((alGet? data dd.1).getD []))

/-- One iteration of the loop of `convert_to_dict_list` (lines 91-99):
append the timestamp, then fold the device loop over the sample's data. -/
def convertStep (acc : Columnar) (s : Sample) : Columnar :=
  { timestamps := acc.timestamps ++ [s.1],
    data := s.2.foldl appendDev acc.data }

/-- `convert_to_dict_list(results)`. -/
def convert_to_dict_list (results : List Sample) : Columnar :=
  results.foldl convertStep { timestamps := [], data := [] }

/-! ## C4: AsyncMonitor lifecycle -/

/-- C4: on an `AsyncMonitor` session, `start()` called a second time,
`stop()` before any `start()`, and `stop()` after a completed `stop()` each
fail with a lifecycle-state error, and the state only ever moves one-way
along `_INIT` (initial, from `__init__`) to `_STARTED` to `_STOPPED`
(terminal): a successful `start` goes exactly from `_INIT` to `_STARTED`
and a successful `stop` exactly from `_STARTED` to `_STOPPED`. -/
theorem C4_lifecycle :
    (∀ p ds infos, (AsyncMonitor.init p ds infos).state = _INIT) ∧
    (∀ m m₁ : AsyncMonitor, m.start = Except.ok m₁ →
      m.state = _INIT ∧ m₁.state = _STARTED ∧
      (∃ msg, m₁.start = Except.error (Err.lifecycleError msg))) ∧
    (∀ p ds infos, ∃ msg,
      (AsyncMonitor.init p ds infos).stop = Except.error (Err.lifecycleError msg)) ∧
    (∀ m m₁ : AsyncMonitor, m.stop = Except.ok m₁ →
      m.state = _STARTED ∧ m₁.state = _STOPPED ∧
      (∃ msg, m₁.stop = Except.error (Err.lifecycleError msg))) := by
  refine ⟨fun p ds infos => rfl, ?_, ?_, ?_⟩
  · intro m m₁ h
    rw [AsyncMonitor.start] at h
    split at h
    · exact absurd h (by simp)
    · next hcond =>
      rw [not_not] at hcond
      rw [Except.ok.injEq] at h
      refine ⟨hcond, by rw [← h], ?_⟩
      refine ⟨"The monitor is already running. Start can only be called once.", ?_⟩
      rw [AsyncMonitor.start, if_pos]
      rw [← h]
      simp [_STARTED, _INIT]
  · intro p ds infos
    refine ⟨"The monitor is not running. Stop can only be called right after start.", ?_⟩
    rw [AsyncMonitor.stop, if_pos]
    simp [AsyncMonitor.init, _INIT, _STARTED]
  · intro m m₁ h
    rw [AsyncMonitor.stop] at h
    split at h
    · exact absurd h (by simp)
    · next hcond =>
      rw [not_not] at hcond
      rw [Except.ok.injEq] at h
      refine ⟨hcond, by rw [← h], ?_⟩
      refine ⟨"The monitor is not running. Stop can only be called right after start.", ?_⟩
      rw [AsyncMonitor.stop, if_pos]
      rw [← h]
      simp [_STARTED, _STOPPED]

/-- Witness for C4 at a concrete session. -/
theorem C4_lifecycle_witness :
    ({ period := 1, devices := [0], information := ["UTILIZATION"],
       state := _INIT } : AsyncMonitor).start =
      Except.ok { period := 1, devices := [0], information := ["UTILIZATION"],
                  state := _STARTED } ∧
    (({ period := 1, devices := [0], information := ["UTILIZATION"],
        state := _INIT } : AsyncMonitor).state = _INIT ∧
     ({ period := 1, devices := [0], information := ["UTILIZATION"],
        state := _STARTED } : AsyncMonitor).state = _STARTED ∧
     (∃ msg, ({ period := 1, devices := [0], information := ["UTILIZATION"],
                state := _STARTED } : AsyncMonitor).start =
        Except.error (Err.lifecycleError msg))) :=
  ⟨rfl, C4_lifecycle.2.1 _ _ rfl⟩

/-! ## C5: pacing of the sampling loop -/

/-- C5: on each tick after the first (`prev_time = some p`), the loop
sleeps exactly the configured period minus the elapsed time since the
previous tick started, sleeps not at all when that difference is zero or
negative, and the resulting tick start is exactly `p + period` whenever the
elapsed time is at most the period (so cadence is tick-start to tick-start
and the query latency is subtracted from the sleep), or is the current time
(immediate) when the tick overran the period. -/
theorem C5_pacing (period work p : ℚ) (clk : RunClock)
    (hp : clk.prev_time = Option.some p) :
    (period - (clk.now - p) > 0 →
      (runTick period clk work).1 = period - (clk.now - p)) ∧
    (period - (clk.now - p) ≤ 0 → (runTick period clk work).1 = 0) ∧
    (clk.now - p ≤ period →
      (runTick period clk work).2.prev_time = Option.some (p + period)) ∧
    (period ≤ clk.now - p →
      (runTick period clk work).2.prev_time = Option.some clk.now) := by
  simp only [runTick, hp]
  refine ⟨?_, ?_, ?_, ?_⟩
  · intro h
    rw [if_pos h]
  · intro h
    rw [if_neg (by linarith)]
  · intro h
    by_cases h2 : period - (clk.now - p) > 0
    · rw [if_pos h2]
      congr 1
      ring
    · rw [if_neg h2]
      have hEq : clk.now - p = period := by linarith
      congr 1
      linarith
  · intro h
    rw [if_neg (by linarith)]
    simp

/-- Witness for C5: period 5, previous tick started at 8, now 10. -/
theorem C5_pacing_witness :
    (runTick 5 { now := 10, prev_time := Option.some 8 } 1).1 = 5 - (10 - 8) ∧
    (runTick 5 { now := 10, prev_time := Option.some 8 } 1).2.prev_time =
      Option.some (8 + 5) :=
  ⟨(C5_pacing 5 1 8 _ rfl).1 (by norm_num),
   (C5_pacing 5 1 8 _ rfl).2.2.1 (by norm_num)⟩

/-! ## C10: the generator continuation protocol -/

theorem monitorYields_pos (cs : List PyVal) : 1 ≤ monitorYields cs := by
  cases cs with
  | nil => simp [monitorYields]
  | cons c cs =>
    rw [monitorYields]
    split
    · exact le_refl 1
    · omega

/-- C10: the `monitor` generator runs another query-and-yield iteration
only when the value sent back is exactly the boolean `True`: the stop test
of line 32 is false iff the sent value is `True`, and the generator yields
more than once iff the first sent value is `True` (otherwise it stops
without querying again). -/
theorem C10_continue_iff_true :
    (∀ c, monitorShouldStop c = false ↔ c = PyVal.bool true) ∧
    (∀ c cs, 1 < monitorYields (c :: cs) ↔ c = PyVal.bool true) := by
  have hstop : ∀ c, monitorShouldStop c = false ↔ c = PyVal.bool true := by
    intro c
    cases c with
    | none => simp [monitorShouldStop, pyIsNone, pyIsBool, pyTruthy]
    | bool b =>
      cases b <;> simp [monitorShouldStop, pyIsNone, pyIsBool, pyTruthy]
    | int i => simp [monitorShouldStop, pyIsNone, pyIsBool, pyTruthy]
    | float q => simp [monitorShouldStop, pyIsNone, pyIsBool, pyTruthy]
    | str s => simp [monitorShouldStop, pyIsNone, pyIsBool, pyTruthy]
  refine ⟨hstop, ?_⟩
  intro c cs
  by_cases h : monitorShouldStop c = true
  · rw [monitorYields, if_pos h]
    simp only [lt_self_iff_false, false_iff]
    intro hc
    rw [hc] at h
    simp [monitorShouldStop, pyIsNone, pyIsBool, pyTruthy] at h
  · rw [Bool.not_eq_true] at h
    rw [monitorYields, if_neg (by rw [h]; simp)]
    have := monitorYields_pos cs
    constructor
    · intro _
      exact (hstop c).mp h
    · intro _
      omega

/-! ## C9: type conversion -/

/-- C9: field values convert to the metric's declared type by a
float-then-truncate path for integer-typed fields (tolerating a decimal
point, as the concrete `"42.7"` instance shows), a direct parse for
floating-point fields, and the trimmed text verbatim for text fields
(`pyFields` trims each field before conversion); the identical rule is
applied by `get_static_info` (`staticConvert`), by the `query_devices` row
parsing (`queryConvert`), and when casting a derived metric's computed
result (`derivedCast`). -/
theorem C9_type_conversion :
    (∀ ty v, staticConvert ty v = queryConvert ty v) ∧
    (∀ v, staticConvert IType.int v = (pyFloat v).map (fun q => Val.int (ratTrunc q))) ∧
    (∀ v, staticConvert IType.float v = (pyFloat v).map Val.float) ∧
    (∀ v, staticConvert IType.str v = some (Val.str v)) ∧
    (∀ line, pyFields line = (splitOnChar ',' line.data).map (fun cs => pyStrip (String.mk cs))) ∧
    (∀ q, derivedCast IType.int (Val.float q) = some (Val.int (ratTrunc q))) ∧
    (∀ q, derivedCast IType.float (Val.float q) = some (Val.float q)) ∧
    staticConvert IType.int "42.7" = some (Val.int 42) := by
  refine ⟨?_, fun v => rfl, fun v => rfl, fun v => rfl, fun line => rfl,
    fun q => rfl, fun q => rfl, ?_⟩
  · intro ty v
    cases ty <;> rfl
  · decide

/-! ## Helper lemmas about `list_devices` -/

theorem list_devices_cached (e : Exec) (cache : List Int) (h : cache ≠ []) :
    list_devices e cache = (Except.ok cache, cache, []) := by
  unfold list_devices
  rw [if_pos h]

theorem list_devices_fresh_ok (e : Exec) (out : String)
    (h : e.listOutput = Except.ok out) :
    list_devices e [] =
      (Except.ok (((pyLines out).filterMap parseDeviceLine).insertionSort
        (fun a b => a ≤ b)),
       ((pyLines out).filterMap parseDeviceLine).insertionSort (fun a b => a ≤ b),
       [Call.listDevs]) := by
  unfold list_devices
  rw [if_neg (by simp), h]

theorem list_devices_fresh_err (e : Exec) (h : e.listOutput = Except.error ()) :
    list_devices e [] =
      (Except.error (Err.execFailure "Failed to list NVIDIA GPUs."), [],
       [Call.listDevs]) := by
  unfold list_devices
  rw [if_neg (by simp), h]

theorem list_devices_calls_sub (e : Exec) (cache : List Int) :
    (list_devices e cache).2.2 = [] ∨ (list_devices e cache).2.2 = [Call.listDevs] := by
  unfold list_devices
  split
  · left
    rfl
  · cases h : e.listOutput with
    | error u => right; rfl
    | ok out => right; rfl

/-- Membership in a freshly parsed, sorted device list. -/
theorem mem_parsed_sorted (out : String) (d : Int) :
    d ∈ ((pyLines out).filterMap parseDeviceLine).insertionSort (fun a b => a ≤ b) ↔
      ∃ line ∈ pyLines out, parseDeviceLine line = some d := by
  rw [(List.perm_insertionSort (fun a b => a ≤ b) _).mem_iff]
  simp [List.mem_filterMap]

/-! ## C6: list_devices caching -/

def execC6Empty : Exec :=
  { listOutput := Except.ok "", staticOutput := fun _ => Except.error (),
    queryOutput := Except.error () }

def execC6Dup : Exec :=
  { listOutput := Except.ok "0\n0", staticOutput := fun _ => Except.error (),
    queryOutput := Except.error () }

/-- C6 counterexample: with a tool whose output parses to no devices the
cache stays empty and a second `list_devices()` call invokes the executor
again, refuting "at most once across any number of calls"; and with a tool
that emits the index `0` twice the returned sequence is `[0, 0]`, refuting
"duplicate-free". -/
theorem C6_counterexample :
    ((list_devices execC6Empty []).2.2 = [Call.listDevs] ∧
     (list_devices execC6Empty (list_devices execC6Empty []).2.1).2.2 =
       [Call.listDevs]) ∧
    (list_devices execC6Dup []).1 = Except.ok [0, 0] := by
  decide

/-- C6 (amended): once the cache is non-empty, every `list_devices()` call
returns the cached list itself without invoking the executor (so all later
calls return that same list and the executor is invoked no further); a call
with an empty cache invokes the executor once and returns the parsed device
indices sorted ascending, duplicates preserved as emitted by the tool. -/
theorem C6_caching (e : Exec) (cache : List Int) (out : String) :
    (cache ≠ [] → list_devices e cache = (Except.ok cache, cache, [])) ∧
    (e.listOutput = Except.ok out →
      ∃ ds, list_devices e [] = (Except.ok ds, ds, [Call.listDevs]) ∧
        List.Sorted (fun a b => a ≤ b) ds ∧
        (∀ d, d ∈ ds ↔ ∃ line ∈ pyLines out, parseDeviceLine line = some d)) := by
  refine ⟨fun h => list_devices_cached e cache h, fun h => ?_⟩
  refine ⟨((pyLines out).filterMap parseDeviceLine).insertionSort (fun a b => a ≤ b),
    list_devices_fresh_ok e out h, List.sorted_insertionSort _ _,
    fun d => mem_parsed_sorted out d⟩

/-- Witness for C6 at a concrete cache and a concrete fresh call. -/
theorem C6_caching_witness :
    (list_devices execC6Dup [0] = (Except.ok [0], [0], [])) ∧
    (∃ ds, list_devices execC6Dup [] = (Except.ok ds, ds, [Call.listDevs]) ∧
      List.Sorted (fun a b => a ≤ b) ds ∧
      (∀ d, d ∈ ds ↔ ∃ line ∈ pyLines "0\n0", parseDeviceLine line = some d)) :=
  ⟨(C6_caching execC6Dup [0] "0\n0").1 (by decide),
   (C6_caching execC6Dup [] "0\n0").2 rfl⟩

/-! ## C7: list_devices error behaviour -/

def execC7Bad : Exec :=
  { listOutput := Except.ok "abc\n1", staticOutput := fun _ => Except.error (),
    queryOutput := Except.error () }

def execC7Err : Exec :=
  { listOutput := Except.error (), staticOutput := fun _ => Except.error (),
    queryOutput := Except.error () }

/-- C7 counterexample: the output line `"abc"` cannot be parsed as an
integer, yet `list_devices()` succeeds with `[1]` — the malformed line is
silently ignored, not an error. -/
theorem C7_counterexample :
    (list_devices execC7Bad []).1 = Except.ok [1] := by
  decide

/-- C7 (amended): `list_devices()` fails with an execution error whenever
the external tool exits non-zero; output lines that are not entirely digits
are silently skipped rather than raising, the call succeeding with exactly
the integer-parsed lines. -/
theorem C7_exec_error (e : Exec) (out : String) :
    (e.listOutput = Except.error () →
      (list_devices e []).1 =
        Except.error (Err.execFailure "Failed to list NVIDIA GPUs.")) ∧
    (e.listOutput = Except.ok out →
      ∃ ds, (list_devices e []).1 = Except.ok ds ∧
        (∀ d, d ∈ ds ↔ ∃ line ∈ pyLines out, parseDeviceLine line = some d)) := by
  constructor
  · intro h
    rw [list_devices_fresh_err e h]
  · intro h
    refine ⟨((pyLines out).filterMap parseDeviceLine).insertionSort (fun a b => a ≤ b),
      ?_, fun d => mem_parsed_sorted out d⟩
    rw [list_devices_fresh_ok e out h]

/-- Witness for C7: a non-zero exit fails, and a malformed line is skipped. -/
theorem C7_exec_error_witness :
    (list_devices execC7Err []).1 =
      Except.error (Err.execFailure "Failed to list NVIDIA GPUs.") ∧
    (∃ ds, (list_devices execC7Bad []).1 = Except.ok ds ∧
      (∀ d, d ∈ ds ↔ ∃ line ∈ pyLines "abc\n1", parseDeviceLine line = some d)) :=
  ⟨(C7_exec_error execC7Err "").1 rfl, (C7_exec_error execC7Bad "abc\n1").2 rfl⟩

/-! ## C2: unknown devices / metrics -/

def execC2 : Exec :=
  { listOutput := Except.ok "0", staticOutput := fun _ => Except.error (),
    queryOutput := Except.error () }

/-- C2 counterexample: with an empty device cache, requesting the unknown
device `5` fails with the invalid-input error naming it — but the executor
HAS been invoked once by that very call (the device-catalog discovery runs
before validation), refuting "the external executor is never invoked by
that call". -/
theorem C2_counterexample :
    (query_devices execC2 { devCache := [], staticCache := [] } [5]
      ["UTILIZATION"]).1 = Except.error (Err.invalidDevices [5]) ∧
    (query_devices execC2 { devCache := [], staticCache := [] } [5]
      ["UTILIZATION"]).2.2 = [Call.listDevs] := by
  decide

theorem calls0_cases (e : Exec) (st : QState) (avail c' : List Int) (calls0 : List Call)
    (hld : list_devices e st.devCache = (Except.ok avail, c', calls0)) :
    calls0 = [] ∨ calls0 = [Call.listDevs] := by
  have hc0 := list_devices_calls_sub e st.devCache
  rw [hld] at hc0
  exact hc0

theorem calls0_cached (e : Exec) (st : QState) (avail c' : List Int) (calls0 : List Call)
    (hld : list_devices e st.devCache = (Except.ok avail, c', calls0))
    (h : st.devCache ≠ []) : calls0 = [] := by
  rw [list_devices_cached e st.devCache h] at hld
  injection hld with h1 h2
  injection h2 with h3 h4
  exact h4.symm

/-- C2 (amended): when the device catalog resolves to `avail` and the
request contains an unknown device or an unknown metric, `query_devices`
fails with an invalid-input error carrying exactly the offending set
difference (unknown devices checked first); the main metrics query is never
issued and no static-info query is issued by that call — the only executor
invocation it can make is the device-catalog discovery, which happens
exactly when the catalog cache is empty (a cached catalog means no
invocation at all). -/
theorem C2_invalid_input (e : Exec) (st : QState) (devices : List Int)
    (information : List String) (avail : List Int)
    (hl : (list_devices e st.devCache).1 = Except.ok avail)
    (hbad : (∃ d ∈ devices, d ∉ avail) ∨ (∃ i ∈ information, i ∉ information_list)) :
    ((∃ ids, (query_devices e st devices information).1 =
        Except.error (Err.invalidDevices ids) ∧ ids ≠ [] ∧
        (∀ d, d ∈ ids ↔ d ∈ devices ∧ d ∉ avail)) ∨
     (∃ ids, (query_devices e st devices information).1 =
        Except.error (Err.invalidInfo ids) ∧ ids ≠ [] ∧
        (∀ i, i ∈ ids ↔ i ∈ information ∧ i ∉ information_list))) ∧
    Call.mainQuery ∉ (query_devices e st devices information).2.2 ∧
    (∀ d, Call.staticInfo d ∉ (query_devices e st devices information).2.2) ∧
    (st.devCache ≠ [] → (query_devices e st devices information).2.2 = []) := by
  rcases hld : list_devices e st.devCache with ⟨r, c', calls0⟩
  rw [hld] at hl
  simp only at hl
  subst hl
  have hcases := calls0_cases e st avail c' calls0 hld
  have hcached := calls0_cached e st avail c' calls0 hld
  by_cases hD : (devices.filter (fun d => d ∉ avail)).dedup = []
  · -- no unknown devices: the metric validation must be the failing one
    have hbad2 : ∃ i ∈ information, i ∉ information_list := by
      rcases hbad with ⟨d, hd, hdn⟩ | h
      · exfalso
        have : d ∈ (devices.filter (fun d => d ∉ avail)).dedup := by
          rw [List.mem_dedup, List.mem_filter]
          exact ⟨hd, by simpa using hdn⟩
        rw [hD] at this
        simp at this
      · exact h
    have hI : (information.filter (fun i => i ∉ information_list)).dedup ≠ [] := by
      rcases hbad2 with ⟨i, hi, hin⟩
      intro hnil
      have : i ∈ (information.filter (fun i => i ∉ information_list)).dedup := by
        rw [List.mem_dedup, List.mem_filter]
        exact ⟨hi, by simpa using hin⟩
      rw [hnil] at this
      simp at this
    simp only [query_devices, hld]
    rw [if_neg (fun h => h hD), if_pos hI]
    refine ⟨Or.inr ⟨_, rfl, hI, fun i => ?_⟩, ?_, ?_, fun h => hcached h⟩
    · rw [List.mem_dedup, List.mem_filter]
      simp
    · rcases hcases with h | h <;> simp [h]
    · intro d
      rcases hcases with h | h <;> simp [h]
  · simp only [query_devices, hld]
    rw [if_pos hD]
    refine ⟨Or.inl ⟨_, rfl, hD, fun d => ?_⟩, ?_, ?_, fun h => hcached h⟩
    · rw [List.mem_dedup, List.mem_filter]
      simp
    · rcases hcases with h | h <;> simp [h]
    · intro d
      rcases hcases with h | h <;> simp [h]

def execC2W : Exec :=
  { listOutput := Except.error (), staticOutput := fun _ => Except.error (),
    queryOutput := Except.error () }

/-- Witness for C2 at a cached catalog `[0]` and unknown device `5`. -/
theorem C2_invalid_input_witness :
    ((∃ ids, (query_devices execC2W { devCache := [0], staticCache := [] } [5]
        ["UTILIZATION"]).1 = Except.error (Err.invalidDevices ids) ∧ ids ≠ [] ∧
        (∀ d, d ∈ ids ↔ d ∈ [(5 : Int)] ∧ d ∉ [(0 : Int)])) ∨
     (∃ ids, (query_devices execC2W { devCache := [0], staticCache := [] } [5]
        ["UTILIZATION"]).1 = Except.error (Err.invalidInfo ids) ∧ ids ≠ [] ∧
        (∀ i, i ∈ ids ↔ i ∈ ["UTILIZATION"] ∧ i ∉ information_list))) ∧
    Call.mainQuery ∉ (query_devices execC2W { devCache := [0], staticCache := [] }
      [5] ["UTILIZATION"]).2.2 ∧
    (∀ d, Call.staticInfo d ∉ (query_devices execC2W
      { devCache := [0], staticCache := [] } [5] ["UTILIZATION"]).2.2) ∧
    (({ devCache := [0], staticCache := [] } : QState).devCache ≠ [] →
      (query_devices execC2W { devCache := [0], staticCache := [] } [5]
        ["UTILIZATION"]).2.2 = []) :=
  C2_invalid_input execC2W { devCache := [0], staticCache := [] } [5] ["UTILIZATION"]
    [0] (by decide) (Or.inl ⟨5, by decide, by decide⟩)

/-! ## C3: missing non-static dependency of a derived metric -/

theorem findDepViolation_sound (information : List String) (info : String) :
    ∀ (deps : List String) (i d : String),
    findDepViolation information info deps = some (i, d) →
    i = info ∧ d ∈ deps ∧ is_static d = false ∧ d ∉ information := by
  intro deps
  induction deps with
  | nil =>
    intro i d h
    simp [findDepViolation] at h
  | cons dep rest ih =>
    intro i d h
    rw [findDepViolation] at h
    split at h
    · next hcond =>
      rw [Option.some.injEq, Prod.mk.injEq] at h
      obtain ⟨h1, h2⟩ := h
      subst h1
      subst h2
      exact ⟨rfl, List.mem_cons_self dep rest, hcond.1, hcond.2⟩
    · obtain ⟨h1, h2, h3, h4⟩ := ih i d h
      exact ⟨h1, List.mem_cons_of_mem dep h2, h3, h4⟩

theorem findDepViolation_ne_none (information : List String) (info : String)
    (deps : List String) (d : String) (hd : d ∈ deps)
    (h1 : is_static d = false) (h2 : d ∉ information) :
    findDepViolation information info deps ≠ none := by
  induction deps with
  | nil => simp at hd
  | cons dep rest ih =>
    rw [findDepViolation]
    split
    · simp
    · next hcond =>
      rcases List.mem_cons.mp hd with heq | hmem
      · subst heq
        exact absurd ⟨h1, h2⟩ hcond
      · exact ih hmem

theorem findDerivedViolation_sound (information : List String) :
    ∀ (l : List String) (i d : String),
    findDerivedViolation information l = some (i, d) →
    i ∈ l ∧ (∃ deps f, alGet? _DERIVED_PROPERTIES i = some (deps, f) ∧ d ∈ deps) ∧
    is_static d = false ∧ d ∉ information := by
  intro l
  induction l with
  | nil =>
    intro i d h
    simp [findDerivedViolation] at h
  | cons info rest ih =>
    intro i d h
    rw [findDerivedViolation] at h
    cases hder : alGet? _DERIVED_PROPERTIES info with
    | none =>
      rw [hder] at h
      simp only at h
      obtain ⟨h1, h2, h3, h4⟩ := ih i d h
      exact ⟨List.mem_cons_of_mem _ h1, h2, h3, h4⟩
    | some p =>
      obtain ⟨deps, f⟩ := p
      rw [hder] at h
      simp only at h
      cases hv : findDepViolation information info deps with
      | none =>
        rw [hv] at h
        simp only at h
        obtain ⟨h1, h2, h3, h4⟩ := ih i d h
        exact ⟨List.mem_cons_of_mem _ h1, h2, h3, h4⟩
      | some v =>
        rw [hv] at h
        simp only [Option.some.injEq] at h
        subst h
        obtain ⟨h1, h2, h3, h4⟩ := findDepViolation_sound information info deps i d hv
        subst h1
        exact ⟨List.mem_cons_self _ _, ⟨deps, f, hder, h2⟩, h3, h4⟩

theorem findDerivedViolation_ne_none (information : List String) :
    ∀ (l : List String) (info : String), info ∈ l →
    ∀ (deps : List String) (f : List Val → Option ℚ),
    alGet? _DERIVED_PROPERTIES info = some (deps, f) →
    ∀ d ∈ deps, is_static d = false → d ∉ information →
    findDerivedViolation information l ≠ none := by
  intro l
  induction l with
  | nil =>
    intro info hmem
    simp at hmem
  | cons a rest ih =>
    intro info hmem deps f hder d hdep h1 h2
    rw [findDerivedViolation]
    rcases List.mem_cons.mp hmem with heq | hmem2
    · subst heq
      rw [hder]
      simp only
      cases hv : findDepViolation information info deps with
      | some v => simp
      | none =>
        exact absurd hv (findDepViolation_ne_none information info deps d hdep h1 h2)
    · cases hder0 : alGet? _DERIVED_PROPERTIES a with
      | none =>
        simp only
        exact ih info hmem2 deps f hder d hdep h1 h2
      | some p =>
        obtain ⟨deps0, f0⟩ := p
        simp only
        cases hv : findDepViolation information a deps0 with
        | some v => simp
        | none =>
          simp only
          exact ih info hmem2 deps f hder d hdep h1 h2

/-- C3: a call whose metrics pass registry validation and whose devices
pass catalog validation, but whose metric set contains a derived metric
missing one of its non-static dependencies, fails with an invalid-input
error naming a derived metric together with the missing non-static
dependency it needs, and neither the main metrics query nor any static-info
query is issued by the call; static dependencies are not required (only a
dependency with `is_static = false` and absent from the request triggers
the error). -/
theorem C3_missing_dependency (e : Exec) (st : QState) (devices : List Int)
    (information : List String) (avail : List Int)
    (hl : (list_devices e st.devCache).1 = Except.ok avail)
    (hdev : ∀ d ∈ devices, d ∈ avail)
    (hinf : ∀ i ∈ information, i ∈ information_list)
    (info : String) (deps : List String) (f : List Val → Option ℚ) (dep : String)
    (hmem : info ∈ information)
    (hder : alGet? _DERIVED_PROPERTIES info = some (deps, f))
    (hdep : dep ∈ deps) (hstat : is_static dep = false) (hnot : dep ∉ information) :
    (∃ i d, (query_devices e st devices information).1 =
        Except.error (Err.missingDep i d) ∧
      i ∈ information ∧
      (∃ deps0 f0, alGet? _DERIVED_PROPERTIES i = some (deps0, f0) ∧ d ∈ deps0) ∧
      is_static d = false ∧ d ∉ information) ∧
    Call.mainQuery ∉ (query_devices e st devices information).2.2 ∧
    (∀ d0, Call.staticInfo d0 ∉ (query_devices e st devices information).2.2) := by
  rcases hld : list_devices e st.devCache with ⟨r, c', calls0⟩
  rw [hld] at hl
  simp only at hl
  subst hl
  have hcases := calls0_cases e st avail c' calls0 hld
  have hD : (devices.filter (fun d => d ∉ avail)).dedup = [] := by
    rw [List.dedup_eq_nil]
    rw [List.filter_eq_nil_iff]
    intro a ha
    simp only [decide_eq_true_eq, Decidable.not_not]
    exact hdev a ha
  have hI : (information.filter (fun i => i ∉ information_list)).dedup = [] := by
    rw [List.dedup_eq_nil]
    rw [List.filter_eq_nil_iff]
    intro a ha
    simp only [decide_eq_true_eq, Decidable.not_not]
    exact hinf a ha
  have hvne := findDerivedViolation_ne_none information information info hmem deps f
    hder dep hdep hstat hnot
  simp only [query_devices, hld]
  rw [if_neg (fun h => h hD), if_neg (fun h => h hI)]
  match hv : findDerivedViolation information information with
  | none => exact absurd hv hvne
  | some v =>
    obtain ⟨h1, h2, h3, h4⟩ :=
      findDerivedViolation_sound information information v.1 v.2 (by rw [hv])
    refine ⟨⟨v.1, v.2, rfl, h1, h2, h3, h4⟩, ?_, ?_⟩
    · rcases hcases with h | h <;> simp [h]
    · intro d0
      rcases hcases with h | h <;> simp [h]

def execC3W : Exec :=
  { listOutput := Except.error (), staticOutput := fun _ => Except.error (),
    queryOutput := Except.error () }

/-- Witness for C3: requesting `MEMORY_USED_PERCENTAGE` without its
non-static dependency `MEMORY_USED` (catalog cached as `[0]`). -/
theorem C3_missing_dependency_witness :
    (∃ i d, (query_devices execC3W { devCache := [0], staticCache := [] } [0]
        ["MEMORY_USED_PERCENTAGE"]).1 = Except.error (Err.missingDep i d) ∧
      i ∈ ["MEMORY_USED_PERCENTAGE"] ∧
      (∃ deps0 f0, alGet? _DERIVED_PROPERTIES i = some (deps0, f0) ∧ d ∈ deps0) ∧
      is_static d = false ∧ d ∉ ["MEMORY_USED_PERCENTAGE"]) ∧
    Call.mainQuery ∉ (query_devices execC3W { devCache := [0], staticCache := [] }
      [0] ["MEMORY_USED_PERCENTAGE"]).2.2 ∧
    (∀ d0, Call.staticInfo d0 ∉ (query_devices execC3W
      { devCache := [0], staticCache := [] } [0] ["MEMORY_USED_PERCENTAGE"]).2.2) :=
  C3_missing_dependency execC3W { devCache := [0], staticCache := [] } [0]
    ["MEMORY_USED_PERCENTAGE"] [0] (by decide) (by decide) (by decide)
    "MEMORY_USED_PERCENTAGE" ["MEMORY_USED", "TOTAL_MEMORY"] memUsedPctFn
    "MEMORY_USED" (by decide) rfl (by decide) (by decide) (by decide)

/-! ## C1: result keys of `query_devices` -/

theorem processLines_keys (e : Exec) (devices : List Int) (information : List String) :
    ∀ (lines : List String) (st : QState) (data : List (Int × List (String × Val)))
      (m : List (Int × List (String × Val))) (st' : QState) (calls : List Call),
    processLines e devices information st lines data = (Except.ok m, st', calls) →
    ∀ d, (alGet? m d).isSome ↔
      ((alGet? data d).isSome ∨
       (d ∈ devices ∧ ∃ line ∈ lines, rowIndex line = some d)) := by
  intro lines
  induction lines with
  | nil =>
    intro st data m st' calls h d
    simp only [processLines] at h
    rw [Prod.mk.injEq, Prod.mk.injEq, Except.ok.injEq] at h
    obtain ⟨hdm, _, _⟩ := h
    subst hdm
    simp
  | cons line rest ih =>
    intro st data m st' calls h d
    simp only [processLines] at h
    cases hlast : (pyFields line).getLast? with
    | none =>
      rw [hlast] at h
      simp at h
    | some lastv =>
      rw [hlast] at h
      simp only at h
      cases hpi : pyInt lastv with
      | none =>
        rw [hpi] at h
        simp at h
      | some gpu_index =>
        rw [hpi] at h
        simp only at h
        have hrowidx : rowIndex line = some gpu_index := by
          rw [rowIndex, hlast]
          exact hpi
        by_cases hdev : gpu_index ∈ devices
        · rw [if_pos hdev] at h
          rcases hrow : processRow e st information gpu_index (pyFields line) with
            ⟨res, st1, calls1⟩
          rw [hrow] at h
          cases res with
          | error er =>
            simp at h
          | ok gpu_data =>
            simp only at h
            rcases hrec : processLines e devices information st1 rest
              (alSet data gpu_index gpu_data) with ⟨res2, st2, calls2⟩
            rw [hrec] at h
            simp only at h
            rw [Prod.mk.injEq, Prod.mk.injEq] at h
            obtain ⟨hres, hst, hcalls⟩ := h
            rw [hres] at hrec
            have hm := ih st1 (alSet data gpu_index gpu_data) m st2 calls2 hrec d
            by_cases hd : d = gpu_index
            · subst hd
              rw [hm]
              constructor
              · intro _
                exact Or.inr ⟨hdev, line, List.mem_cons_self _ _, hrowidx⟩
              · intro _
                left
                rw [alGet?_alSet_self]
                rfl
            · have hgd : gpu_index ≠ d := fun hc => hd hc.symm
              have hline : ¬ (rowIndex line = some d) := by
                rw [hrowidx, Option.some.injEq]
                exact fun hc => hd hc.symm
              rw [hm, alGet?_alSet_ne data gpu_index d gpu_data hgd]
              constructor
              · rintro (hh | ⟨hmem, l, hl, hP⟩)
                · exact Or.inl hh
                · exact Or.inr ⟨hmem, l, List.mem_cons_of_mem _ hl, hP⟩
              · rintro (hh | ⟨hmem, l, hl, hP⟩)
                · exact Or.inl hh
                · rcases List.mem_cons.mp hl with rfl | hl2
                  · exact absurd hP hline
                  · exact Or.inr ⟨hmem, l, hl2, hP⟩
        · rw [if_neg hdev] at h
          have hm := ih st data m st' calls h d
          rw [hm]
          constructor
          · rintro (hh | ⟨hmem, l, hl, hP⟩)
            · exact Or.inl hh
            · exact Or.inr ⟨hmem, l, List.mem_cons_of_mem _ hl, hP⟩
          · rintro (hh | ⟨hmem, l, hl, hP⟩)
            · exact Or.inl hh
            · rcases List.mem_cons.mp hl with rfl | hl2
              · rw [hrowidx, Option.some.injEq] at hP
                subst hP
                exact absurd hmem hdev
              · exact Or.inr ⟨hmem, l, hl2, hP⟩

/-- C1: for every call to `query_devices` that returns successfully, the
returned mapping contains a device exactly when the device index appears in
some row of the executor's response and the device was requested: devices
requested but absent from the response are simply absent (no error), and no
device outside the requested list ever appears. -/
theorem C1_result_keys (e : Exec) (st : QState) (devices : List Int)
    (information : List String) (out : String)
    (hq : e.queryOutput = Except.ok out)
    (m : List (Int × List (String × Val))) (st' : QState) (calls : List Call)
    (h : query_devices e st devices information = (Except.ok m, st', calls)) :
    ∀ d, (alGet? m d).isSome ↔ (d ∈ responseIndices out ∧ d ∈ devices) := by
  intro d
  rcases hld : list_devices e st.devCache with ⟨r, c', calls0⟩
  simp only [query_devices, hld] at h
  cases r with
  | error er => simp at h
  | ok avail =>
    simp only at h
    by_cases hD : (devices.filter (fun x => x ∉ avail)).dedup = []
    · rw [if_neg (fun hc => hc hD)] at h
      by_cases hI : (information.filter (fun i => i ∉ information_list)).dedup = []
      · rw [if_neg (fun hc => hc hI)] at h
        cases hv : findDerivedViolation information information with
        | some v =>
          rw [hv] at h
          simp at h
        | none =>
          rw [hv] at h
          simp only at h
          rw [hq] at h
          simp only at h
          rcases hpl : processLines e devices information
            { devCache := c', staticCache := st.staticCache } (pyLines out) [] with
            ⟨res, st1, calls1⟩
          rw [hpl] at h
          simp only at h
          rw [Prod.mk.injEq, Prod.mk.injEq] at h
          obtain ⟨hres, hst, hcalls⟩ := h
          rw [hres] at hpl
          have hkeys := processLines_keys e devices information (pyLines out)
            { devCache := c', staticCache := st.staticCache } [] m st1 calls1 hpl d
          rw [hkeys]
          rw [responseIndices, List.mem_filterMap]
          simp only [alGet?_nil, Option.isSome_none, Bool.false_eq_true, false_or]
          rw [and_comm]
      · rw [if_pos hI] at h
        simp at h
    · rw [if_pos hD] at h
      simp at h

def execC1W : Exec :=
  { listOutput := Except.error (), staticOutput := fun _ => Except.error (),
    queryOutput := Except.ok "5, 0\n7, 1" }

/-- Witness for C1: catalog cached as `[0, 1]`, request for device `0`
only; the response has rows for devices `0` and `1`, and the result holds
exactly device `0`. -/
theorem C1_result_keys_witness :
    query_devices execC1W { devCache := [0, 1], staticCache := [] } [0]
      ["UTILIZATION"] =
      (Except.ok [((0 : Int), [("UTILIZATION", Val.int 5)])],
       { devCache := [0, 1], staticCache := [] }, [Call.mainQuery]) ∧
    ((alGet? [((0 : Int), [("UTILIZATION", Val.int 5)])] (0 : Int)).isSome ↔
      ((0 : Int) ∈ responseIndices "5, 0\n7, 1" ∧ (0 : Int) ∈ [(0 : Int)])) ∧
    ((alGet? [((0 : Int), [("UTILIZATION", Val.int 5)])] (1 : Int)).isSome ↔
      ((1 : Int) ∈ responseIndices "5, 0\n7, 1" ∧ (1 : Int) ∈ [(0 : Int)])) :=
  ⟨by decide,
   C1_result_keys execC1W { devCache := [0, 1], staticCache := [] } [0]
     ["UTILIZATION"] "5, 0\n7, 1" rfl [((0 : Int), [("UTILIZATION", Val.int 5)])]
     { devCache := [0, 1], staticCache := [] } [Call.mainQuery] (by decide) 0,
   C1_result_keys execC1W { devCache := [0, 1], staticCache := [] } [0]
     ["UTILIZATION"] "5, 0\n7, 1" rfl [((0 : Int), [("UTILIZATION", Val.int 5)])]
     { devCache := [0, 1], staticCache := [] } [Call.mainQuery] (by decide) 1⟩

/-! ## C8: round trip of `convert_to_dict_list`

Further association-list lemmas used by the fold analysis. -/

theorem alGet?_eq_none_of_not_mem {α β : Type} [DecidableEq α] (d : List (α × β)) (k : α)
    (h : k ∉ d.map Prod.fst) : alGet? d k = none := by
  induction d with
  | nil => rfl
  | cons hd tl ih =>
    obtain ⟨k', v'⟩ := hd
    simp only [List.map_cons, List.mem_cons, not_or] at h
    rw [alGet?_cons, if_neg (fun hc => h.1 hc.symm)]
    exact ih h.2

theorem alGet?_append_of_not_mem {α β : Type} [DecidableEq α]
    (l₁ l₂ : List (α × β)) (k : α) (h : k ∉ l₁.map Prod.fst) :
    alGet? (l₁ ++ l₂) k = alGet? l₂ k := by
  induction l₁ with
  | nil => rfl
  | cons hd tl ih =>
    obtain ⟨k', v'⟩ := hd
    simp only [List.map_cons, List.mem_cons, not_or] at h
    rw [List.cons_append, alGet?_cons, if_neg (fun hc => h.1 hc.symm)]
    exact ih h.2

theorem alSet_append_of_not_mem {α β : Type} [DecidableEq α]
    (l₁ l₂ : List (α × β)) (k : α) (v : β) (h : k ∉ l₁.map Prod.fst) :
    alSet (l₁ ++ l₂) k v = l₁ ++ alSet l₂ k v := by
  induction l₁ with
  | nil => rfl
  | cons hd tl ih =>
    obtain ⟨k', v'⟩ := hd
    simp only [List.map_cons, List.mem_cons, not_or] at h
    rw [List.cons_append, alSet, if_neg (fun hc => h.1 hc.symm)]
    rw [ih h.2, List.cons_append]

theorem alSet_cons_self {α β : Type} [DecidableEq α] (k : α) (v₀ v : β)
    (rest : List (α × β)) : alSet ((k, v₀) :: rest) k v = (k, v) :: rest := by
  simp [alSet]

theorem alSet_of_alGet?_eq_none {α β : Type} [DecidableEq α] (d : List (α × β))
    (k : α) (v : β) (h : alGet? d k = none) : alSet d k v = d ++ [(k, v)] := by
  induction d with
  | nil => rfl
  | cons hd tl ih =>
    obtain ⟨k', v'⟩ := hd
    rw [alGet?_cons] at h
    by_cases hk : k' = k
    · rw [if_pos hk] at h
      exact absurd h (by simp)
    · rw [if_neg hk] at h
      rw [alSet, if_neg hk, ih h, List.cons_append]

theorem alGet?_of_mem_nodup {α β : Type} [DecidableEq α] (d : List (α × β))
    (k : α) (v : β) (hnd : (d.map Prod.fst).Nodup) (hmem : (k, v) ∈ d) :
    alGet? d k = some v := by
  induction d with
  | nil => simp at hmem
  | cons hd tl ih =>
    obtain ⟨k', v'⟩ := hd
    simp only [List.map_cons, List.nodup_cons] at hnd
    rcases List.mem_cons.mp hmem with heq | hmem2
    · rw [Prod.mk.injEq] at heq
      obtain ⟨h1, h2⟩ := heq
      rw [alGet?_cons, if_pos h1.symm, h2]
    · have hk : k' ≠ k := by
        intro hc
        subst hc
        exact hnd.1 (List.mem_map_of_mem Prod.fst hmem2)
      rw [alGet?_cons, if_neg hk]
      exact ih hnd.2 hmem2

/-- The key loop of `convert_to_dict_list` on keys it has not seen yet:
each key-value pair is appended as a fresh one-element column. -/
theorem innerFoldFresh :
    ∀ (kvs : List (String × Val)) (done : List (String × List Val)),
    (∀ kv ∈ kvs, kv.1 ∉ done.map Prod.fst) → (kvs.map Prod.fst).Nodup →
    kvs.foldl appendKV done = done ++ kvs.map (fun kv => (kv.1, [kv.2])) := by
  intro kvs
  induction kvs with
  | nil =>
    intro done h hnd
    simp
  | cons kv rest ih =>
    intro done h hnd
    simp only [List.map_cons, List.nodup_cons] at hnd
    rw [List.foldl_cons]
    have h1 : appendKV done kv = done ++ [(kv.1, [kv.2])] := by
      rw [appendKV, alGet?_eq_none_of_not_mem done kv.1 (h kv (List.mem_cons_self _ _))]
      simp only [Option.getD_none, List.nil_append]
      exact alSet_of_alGet?_eq_none done kv.1 [kv.2]
        (alGet?_eq_none_of_not_mem done kv.1 (h kv (List.mem_cons_self _ _)))
    rw [h1, ih (done ++ [(kv.1, [kv.2])]) ?_ hnd.2, List.append_assoc]
    · rfl
    · intro kv' hkv'
      simp only [List.map_append, List.mem_append, List.map_cons, List.map_nil,
        List.mem_singleton, not_or]
      refine ⟨h kv' (List.mem_cons_of_mem _ hkv'), ?_⟩
      intro hc
      exact hnd.1 (hc ▸ List.mem_map_of_mem Prod.fst hkv')

/-- The key loop on an accumulator that already holds one column per key,
in the same order: each column gets the sample's value appended. -/
theorem innerFoldCols (colf : String → List Val) :
    ∀ (kvs : List (String × Val)) (done : List (String × List Val)),
    (∀ kv ∈ kvs, kv.1 ∉ done.map Prod.fst) → (kvs.map Prod.fst).Nodup →
    kvs.foldl appendKV (done ++ kvs.map (fun kv => (kv.1, colf kv.1))) =
      done ++ kvs.map (fun kv => (kv.1, colf kv.1 ++ [kv.2])) := by
  intro kvs
  induction kvs with
  | nil =>
    intro done h hnd
    simp
  | cons kv rest ih =>
    intro done h hnd
    simp only [List.map_cons, List.nodup_cons] at hnd
    rw [List.foldl_cons]
    have hget : alGet? (done ++ (kv.1, colf kv.1) :: rest.map (fun kv => (kv.1, colf kv.1)))
        kv.1 = some (colf kv.1) := by
      rw [alGet?_append_of_not_mem done _ kv.1 (h kv (List.mem_cons_self _ _))]
      rw [alGet?_cons, if_pos rfl]
    have hset : appendKV (done ++ (kv.1, colf kv.1) :: rest.map (fun kv => (kv.1, colf kv.1)))
        kv = (done ++ [(kv.1, colf kv.1 ++ [kv.2])]) ++ rest.map (fun kv => (kv.1, colf kv.1)) := by
      rw [appendKV, hget]
      simp only [Option.getD_some]
      rw [alSet_append_of_not_mem done _ kv.1 _ (h kv (List.mem_cons_self _ _))]
      rw [alSet_cons_self]
      simp
    rw [List.map_cons, hset, ih (done ++ [(kv.1, colf kv.1 ++ [kv.2])]) ?_ hnd.2]
    · simp
    · intro kv' hkv'
      simp only [List.map_append, List.mem_append, List.map_cons, List.map_nil,
        List.mem_singleton, not_or]
      refine ⟨h kv' (List.mem_cons_of_mem _ hkv'), ?_⟩
      intro hc
      exact hnd.1 (hc ▸ List.mem_map_of_mem Prod.fst hkv')

/-- The device loop on device keys it has not seen yet. -/
theorem outerFoldFresh :
    ∀ (dds : List (Int × List (String × Val))) (done : List (Int × List (String × List Val))),
    (∀ dd ∈ dds, dd.1 ∉ done.map Prod.fst) → (dds.map Prod.fst).Nodup →
    (∀ dd ∈ dds, (dd.2.map Prod.fst).Nodup) →
    dds.foldl appendDev done =
      done ++ dds.map (fun dd => (dd.1, dd.2.map (fun kv => (kv.1, [kv.2])))) := by
  intro dds
  induction dds with
  | nil =>
    intro done h hnd hin
    simp
  | cons dd rest ih =>
    intro done h hnd hin
    simp only [List.map_cons, List.nodup_cons] at hnd
    rw [List.foldl_cons]
    have h1 : appendDev done dd = done ++ [(dd.1, dd.2.map (fun kv => (kv.1, [kv.2])))] := by
      rw [appendDev, alGet?_eq_none_of_not_mem done dd.1 (h dd (List.mem_cons_self _ _))]
      simp only [Option.getD_none]
      rw [innerFoldFresh dd.2 [] (by simp) (hin dd (List.mem_cons_self _ _))]
      simp only [List.nil_append]
      exact alSet_of_alGet?_eq_none done dd.1 _
        (alGet?_eq_none_of_not_mem done dd.1 (h dd (List.mem_cons_self _ _)))
    rw [h1, ih (done ++ [(dd.1, dd.2.map (fun kv => (kv.1, [kv.2])))]) ?_ hnd.2
      (fun dd' hdd' => hin dd' (List.mem_cons_of_mem _ hdd')), List.append_assoc]
    · rfl
    · intro dd' hdd'
      simp only [List.map_append, List.mem_append, List.map_cons, List.map_nil,
        List.mem_singleton, not_or]
      refine ⟨h dd' (List.mem_cons_of_mem _ hdd'), ?_⟩
      intro hc
      exact hnd.1 (hc ▸ List.mem_map_of_mem Prod.fst hdd')

/-- The device loop on an accumulator already holding, in the same order,
one column dict per device of the sample: every column of every device gets
the sample's value appended. -/
theorem outerFoldCols (colf : Int → String → List Val) :
    ∀ (dds : List (Int × List (String × Val))) (done : List (Int × List (String × List Val))),
    (∀ dd ∈ dds, dd.1 ∉ done.map Prod.fst) → (dds.map Prod.fst).Nodup →
    (∀ dd ∈ dds, (dd.2.map Prod.fst).Nodup) →
    dds.foldl appendDev
      (done ++ dds.map (fun dd => (dd.1, dd.2.map (fun kv => (kv.1, colf dd.1 kv.1))))) =
      done ++ dds.map (fun dd => (dd.1, dd.2.map (fun kv => (kv.1, colf dd.1 kv.1 ++ [kv.2])))) := by
  intro dds
  induction dds with
  | nil =>
    intro done h hnd hin
    simp
  | cons dd rest ih =>
    intro done h hnd hin
    simp only [List.map_cons, List.nodup_cons] at hnd
    rw [List.foldl_cons]
    have hget : alGet? (done ++ (dd.1, dd.2.map (fun kv => (kv.1, colf dd.1 kv.1))) ::
        rest.map (fun dd => (dd.1, dd.2.map (fun kv => (kv.1, colf dd.1 kv.1))))) dd.1 =
        some (dd.2.map (fun kv => (kv.1, colf dd.1 kv.1))) := by
      rw [alGet?_append_of_not_mem done _ dd.1 (h dd (List.mem_cons_self _ _))]
      rw [alGet?_cons, if_pos rfl]
    have hinner : dd.2.foldl appendKV (dd.2.map (fun kv => (kv.1, colf dd.1 kv.1))) =
        dd.2.map (fun kv => (kv.1, colf dd.1 kv.1 ++ [kv.2])) := by
      have := innerFoldCols (colf dd.1) dd.2 [] (by simp) (hin dd (List.mem_cons_self _ _))
      simpa using this
    have hset : appendDev (done ++ (dd.1, dd.2.map (fun kv => (kv.1, colf dd.1 kv.1))) ::
        rest.map (fun dd => (dd.1, dd.2.map (fun kv => (kv.1, colf dd.1 kv.1))))) dd =
        (done ++ [(dd.1, dd.2.map (fun kv => (kv.1, colf dd.1 kv.1 ++ [kv.2])))]) ++
          rest.map (fun dd => (dd.1, dd.2.map (fun kv => (kv.1, colf dd.1 kv.1)))) := by
      rw [appendDev, hget]
      simp only [Option.getD_some]
      rw [hinner]
      rw [alSet_append_of_not_mem done _ dd.1 _ (h dd (List.mem_cons_self _ _))]
      rw [alSet_cons_self]
      simp
    rw [List.map_cons, hset, ih (done ++ [(dd.1, dd.2.map (fun kv => (kv.1, colf dd.1 kv.1 ++ [kv.2])))]) ?_
      hnd.2 (fun dd' hdd' => hin dd' (List.mem_cons_of_mem _ hdd'))]
    · simp
    · intro dd' hdd'
      simp only [List.map_append, List.mem_append, List.map_cons, List.map_nil,
        List.mem_singleton, not_or]
      refine ⟨h dd' (List.mem_cons_of_mem _ hdd'), ?_⟩
      intro hc
      exact hnd.1 (hc ▸ List.mem_map_of_mem Prod.fst hdd')

/-- The shape of a sample: its device list, each with its metric-key list. -/
def sampleShape (s : Sample) : List (Int × List String) :=
  s.2.map (fun dd => (dd.1, dd.2.map Prod.fst))

/-- The value a sample holds for device `d` and metric `k` (dict lookups,
with an arbitrary default that is never reached under a matching shape). -/
def valAt (s : Sample) (d : Int) (k : String) : Val :=
  (alGet? ((alGet? s.2 d).getD []) k).getD (Val.int 0)

/-- The columnar `"data"` dict a uniform buffer converts to: one column per
device and metric, listing the buffer's values in order. -/
def shapeCols (shape : List (Int × List String)) (rs : List Sample) :
    List (Int × List (String × List Val)) :=
  shape.map (fun p => (p.1, p.2.map (fun k => (k, rs.map (fun s => valAt s p.1 k)))))

theorem map_shape {γ : Type} (f : Int → String → γ) (dds : List (Int × List (String × Val))) :
    (dds.map (fun dd => (dd.1, dd.2.map Prod.fst))).map
        (fun p => (p.1, p.2.map (fun k => (k, f p.1 k)))) =
      dds.map (fun dd => (dd.1, dd.2.map (fun kv => (kv.1, f dd.1 kv.1)))) := by
  rw [List.map_map]
  apply List.map_congr_left
  intro dd _
  simp [List.map_map, Function.comp_def]

theorem sampleShape_fst (s : Sample) :
    (sampleShape s).map Prod.fst = s.2.map Prod.fst := by
  rw [sampleShape, List.map_map]
  rfl

theorem valAt_of_mem (s : Sample) (dd : Int × List (String × Val)) (kv : String × Val)
    (hdev : (s.2.map Prod.fst).Nodup) (hdd : dd ∈ s.2)
    (hkeys : (dd.2.map Prod.fst).Nodup) (hkv : kv ∈ dd.2) :
    valAt s dd.1 kv.1 = kv.2 := by
  simp only [valAt]
  rw [alGet?_of_mem_nodup s.2 dd.1 dd.2 hdev (by rwa [Prod.mk.eta])]
  simp only [Option.getD_some]
  rw [alGet?_of_mem_nodup dd.2 kv.1 kv.2 hkeys (by rwa [Prod.mk.eta])]
  rfl

theorem sample_reconstruct (shape : List (Int × List String)) (s : Sample)
    (hsh : sampleShape s = shape)
    (hdev : (shape.map Prod.fst).Nodup) (hkeys : ∀ p ∈ shape, p.2.Nodup) :
    shape.map (fun p => (p.1, p.2.map (fun k => (k, valAt s p.1 k)))) = s.2 := by
  have hdev' : (s.2.map Prod.fst).Nodup := by
    rw [← sampleShape_fst s, hsh]
    exact hdev
  have hin' : ∀ dd ∈ s.2, (dd.2.map Prod.fst).Nodup := by
    intro dd hdd
    have hm : (dd.1, dd.2.map Prod.fst) ∈ sampleShape s := List.mem_map_of_mem _ hdd
    rw [hsh] at hm
    exact hkeys _ hm
  subst hsh
  rw [sampleShape, map_shape (fun d k => valAt s d k) s.2]
  have hinner : ∀ dd ∈ s.2,
      (dd.1, dd.2.map (fun kv => (kv.1, valAt s dd.1 kv.1))) = id dd := by
    intro dd hdd
    rw [Prod.mk.injEq]
    refine ⟨rfl, ?_⟩
    have hkv : ∀ kv ∈ dd.2, (kv.1, valAt s dd.1 kv.1) = id kv := by
      intro kv hkv
      rw [valAt_of_mem s dd kv hdev' hdd (hin' dd hdd) hkv]
      exact Prod.mk.eta
    rw [List.map_congr_left hkv, List.map_id]
    rfl
  rw [List.map_congr_left hinner, List.map_id]

/-- Closed form of `convert_to_dict_list` on a non-empty uniform buffer:
the timestamps in order, and one column per shape entry holding the
buffer's values in order. -/
theorem convert_closed (shape : List (Int × List String))
    (hdev : (shape.map Prod.fst).Nodup) (hkeys : ∀ p ∈ shape, p.2.Nodup) :
    ∀ (rs : List Sample), rs ≠ [] → (∀ s ∈ rs, sampleShape s = shape) →
    convert_to_dict_list rs = ⟨rs.map Prod.fst, shapeCols shape rs⟩ := by
  intro rs
  induction rs using List.reverseRecOn with
  | nil =>
    intro hne hsh
    exact absurd rfl hne
  | append_singleton rs s ih =>
    intro hne hsh
    have hshs : sampleShape s = shape := hsh s (by simp)
    have hdev' : (s.2.map Prod.fst).Nodup := by
      rw [← sampleShape_fst s, hshs]
      exact hdev
    have hin' : ∀ dd ∈ s.2, (dd.2.map Prod.fst).Nodup := by
      intro dd hdd
      have hm : (dd.1, dd.2.map Prod.fst) ∈ sampleShape s := List.mem_map_of_mem _ hdd
      rw [hshs] at hm
      exact hkeys _ hm
    have hstep : convert_to_dict_list (rs ++ [s]) =
        convertStep (convert_to_dict_list rs) s := by
      rw [convert_to_dict_list, convert_to_dict_list, List.foldl_append,
        List.foldl_cons, List.foldl_nil]
    rw [hstep]
    rcases eq_or_ne rs [] with hrs | hrs
    · subst hrs
      rw [convertStep, Columnar.mk.injEq]
      refine ⟨rfl, ?_⟩
      have hout := outerFoldFresh s.2 [] (by simp) hdev' hin'
      rw [List.nil_append] at hout
      have hcols : shapeCols shape ([] ++ [s]) =
          s.2.map (fun dd => (dd.1, dd.2.map (fun kv => (kv.1, [valAt s dd.1 kv.1])))) := by
        rw [shapeCols, ← hshs]
        exact map_shape (fun d k => [valAt s d k]) s.2
      rw [hcols]
      show s.2.foldl appendDev [] = _
      rw [hout]
      apply List.map_congr_left
      intro dd hdd
      rw [Prod.mk.injEq]
      refine ⟨rfl, ?_⟩
      apply List.map_congr_left
      intro kv hkv
      rw [Prod.mk.injEq]
      refine ⟨rfl, ?_⟩
      rw [valAt_of_mem s dd kv hdev' hdd (hin' dd hdd) hkv]
    · rw [ih hrs (fun s' hs' => hsh s' (List.mem_append_left _ hs'))]
      rw [convertStep, Columnar.mk.injEq]
      constructor
      · simp
      · have hcols : shapeCols shape rs =
            s.2.map (fun dd => (dd.1, dd.2.map (fun kv =>
              (kv.1, rs.map (fun s' => valAt s' dd.1 kv.1))))) := by
          rw [shapeCols, ← hshs]
          exact map_shape (fun d k => rs.map (fun s' => valAt s' d k)) s.2
        have hcols2 : shapeCols shape (rs ++ [s]) =
            s.2.map (fun dd => (dd.1, dd.2.map (fun kv =>
              (kv.1, (rs ++ [s]).map (fun s' => valAt s' dd.1 kv.1))))) := by
          rw [shapeCols, ← hshs]
          exact map_shape (fun d k => (rs ++ [s]).map (fun s' => valAt s' d k)) s.2
        show s.2.foldl appendDev (shapeCols shape rs) = shapeCols shape (rs ++ [s])
        rw [hcols, hcols2]
        have hout := outerFoldCols (fun d k => rs.map (fun s' => valAt s' d k)) s.2 []
          (by simp) hdev' hin'
        rw [List.nil_append, List.nil_append] at hout
        rw [hout]
        apply List.map_congr_left
        intro dd hdd
        rw [Prod.mk.injEq]
        refine ⟨rfl, ?_⟩
        apply List.map_congr_left
        intro kv hkv
        rw [Prod.mk.injEq]
        refine ⟨rfl, ?_⟩
        rw [List.map_append]
        simp only [List.map_cons, List.map_nil]
        rw [valAt_of_mem s dd kv hdev' hdd (hin' dd hdd) hkv]

/-- The row-by-row re-expansion, recursing over timestamps: each row takes
the heads of all value columns, the rest continues with the tails. -/
def expandRows : List ℚ → List (Int × List (String × List Val)) → List Sample
  | [], _ => []
  | t :: ts, cols =>
    (t, cols.map (fun dc => (dc.1, dc.2.map (fun kc => (kc.1, kc.2.headD (Val.int 0)))))) ::
      expandRows ts (cols.map (fun dc => (dc.1, dc.2.map (fun kc => (kc.1, kc.2.tail)))))

/-- Modelled from the spec: the row-by-row re-expansion of the columnar
form ("a result buffer converted to a columnar form (timestamps list plus
per-device per-metric lists) must, when re-expanded row-by-row, ...") —
the re-expander itself is not a function of the repository.  Row `i` pairs
the `i`-th timestamp with, for every device and metric key of the columnar
data, the `i`-th entry of its value list. -/
def expandColumnar (c : Columnar) : List Sample := expandRows c.timestamps c.data

theorem expandRows_shapeCols (shape : List (Int × List String))
    (hdev : (shape.map Prod.fst).Nodup) (hkeys : ∀ p ∈ shape, p.2.Nodup) :
    ∀ (rs : List Sample), (∀ s ∈ rs, sampleShape s = shape) →
    expandRows (rs.map Prod.fst) (shapeCols shape rs) = rs := by
  intro rs
  induction rs with
  | nil =>
    intro hsh
    rfl
  | cons s rest ih =>
    intro hsh
    have hshs : sampleShape s = shape := hsh s (List.mem_cons_self _ _)
    rw [List.map_cons, expandRows]
    have hhead : (shapeCols shape (s :: rest)).map
        (fun dc => (dc.1, dc.2.map (fun kc => (kc.1, kc.2.headD (Val.int 0))))) =
        shape.map (fun p => (p.1, p.2.map (fun k => (k, valAt s p.1 k)))) := by
      rw [shapeCols, List.map_map]
      apply List.map_congr_left
      intro p _
      simp only [Function.comp_apply, List.map_map]
      rw [Prod.mk.injEq]
      refine ⟨rfl, ?_⟩
      apply List.map_congr_left
      intro k _
      simp only [Function.comp_apply, List.map_cons, List.headD_cons]
    have htail : (shapeCols shape (s :: rest)).map
        (fun dc => (dc.1, dc.2.map (fun kc => (kc.1, kc.2.tail)))) =
        shapeCols shape rest := by
      rw [shapeCols, shapeCols, List.map_map]
      apply List.map_congr_left
      intro p _
      simp only [Function.comp_apply, List.map_map]
      rw [Prod.mk.injEq]
      refine ⟨rfl, ?_⟩
      apply List.map_congr_left
      intro k _
      simp only [Function.comp_apply, List.map_cons, List.tail_cons]
    rw [hhead, htail, ih (fun s' h => hsh s' (List.mem_cons_of_mem _ h))]
    rw [sample_reconstruct shape s hshs hdev hkeys]

/-- C8 (amended): for every result buffer all of whose samples share a
single shape — the same devices in the same order, each device with the
same duplicate-free metric-key list — converting to columnar form with
`convert_to_dict_list` and re-expanding row-by-row reproduces the original
ordered sequence of samples exactly. -/
theorem C8_roundtrip (shape : List (Int × List String)) (rs : List Sample)
    (hsh : ∀ s ∈ rs, sampleShape s = shape)
    (hdev : (shape.map Prod.fst).Nodup) (hkeys : ∀ p ∈ shape, p.2.Nodup) :
    expandColumnar (convert_to_dict_list rs) = rs := by
  rcases eq_or_ne rs [] with hrs | hrs
  · subst hrs
    rfl
  · rw [convert_closed shape hdev hkeys rs hrs hsh, expandColumnar]
    exact expandRows_shapeCols shape hdev hkeys rs hsh

def rsC8a : List Sample :=
  [((0 : ℚ), []), ((1 : ℚ), [((0 : Int), [("UTILIZATION", Val.int 5)])])]

def rsC8b : List Sample :=
  [((0 : ℚ), [((0 : Int), [("UTILIZATION", Val.int 5)])]), ((1 : ℚ), [])]

/-- C8 counterexample: two different buffers (a device present only in the
second sample vs. only in the first) convert to the same columnar form, so
no re-expansion whatsoever can reproduce both, and the natural row-by-row
re-expansion indeed fails to reproduce the first. -/
theorem C8_counterexample :
    (convert_to_dict_list rsC8a = convert_to_dict_list rsC8b ∧ rsC8a ≠ rsC8b) ∧
    expandColumnar (convert_to_dict_list rsC8a) ≠ rsC8a :=
  ⟨⟨by decide, by decide⟩, by decide⟩

def rsC8w : List Sample :=
  [((0 : ℚ), [((0 : Int), [("UTILIZATION", Val.int 1)])]),
   ((1 : ℚ), [((0 : Int), [("UTILIZATION", Val.int 2)])])]

/-- Witness for C8 on a concrete uniform two-sample buffer. -/
theorem C8_roundtrip_witness :
    expandColumnar (convert_to_dict_list rsC8w) = rsC8w :=
  C8_roundtrip [((0 : Int), ["UTILIZATION"])] rsC8w (by decide) (by decide) (by decide)
